import Mathlib

/-!
Verification of the backup-MSB browsing tool (observe_backup_msbs).

The development shallowly embeds the logic of the tool:

* `resolveSlot` embeds the time-slot selection performed in
  `ObserveBackup.search` (the `current_time in times` test, the
  append/sort/index/wrap sequence).  Python's `list.sort` is a stable
  sort with respect to `<=`; on a linear order the sorted permutation of
  a list is unique as a value, so `List.insertionSort (· ≤ ·)` computes
  the same list.
* `matchesTimePattern` embeds the `valid_time` regular expression
  `^\d\d-\d\d-\d\d$`.
* `bands`, `instruments`, `queries` embed the static lookup tables and
  `searchSegments` / `searchDirectory` the `os.path.join` call building
  the snapshot directory.
* `FSTree` / `pathExists` model the directory tree consulted through
  `os.listdir` / `os.path.exists`, and `searchIn` the part of `search`
  that decides between listing results and showing "No results".
* `parseInfo` / `loadInfoFile` embed the sidecar-metadata reading,
  with `Except` modelling a raised exception.
* `ProcResult` / `startup` embed the start-up health checks of the two
  external executables, and `send_to_queue` the submission handler.
-/

/-- The time-slot resolution from `ObserveBackup.search`, second stage:
given the (already appended and sorted) list `ts` and the current time
`t`, locate `t` and take the next entry, wrapping to the head when `t`
sorts last.  The `getD` / `headD` defaults are unreachable when
`t ∈ ts`. -/
def resolveAux (ts : List String) (t : String) : String :=
  if ts.indexOf t = ts.length - 1 then ts.headD t
  else ts.getD (ts.indexOf t + 1) t

/-- The time-slot resolution from `ObserveBackup.search`: if the current
time is among the available times use it, otherwise append it, sort, and
pick the successor (wrapping around past the end). -/
def resolveSlot (times : List String) (current_time : String) : String :=
  if current_time ∈ times then current_time
  else resolveAux (List.insertionSort (· ≤ ·) (times ++ [current_time])) current_time

/-- The `valid_time` pattern `^\d\d-\d\d-\d\d$`. -/
def matchesTimePattern (s : String) : Bool :=
  match s.data with
  | [a, b, h1, c, d, h2, e, f] =>
      a.isDigit && b.isDigit && (h1 == '-') && c.isDigit && d.isDigit &&
        (h2 == '-') && e.isDigit && f.isDigit
  | _ => false

/-- Two zero-padded decimal digits, as rendered by `strftime` for a
field value below 100. -/
def two_digits (n : Nat) : List Char :=
  [Char.ofNat (48 + n / 10), Char.ofNat (48 + n % 10)]

/-- The label produced by `strftime('%H-%M-%S')` for the time of day
`h:m:s`. -/
def timeLabel (h m s : Nat) : String :=
  String.mk (two_digits h ++ '-' :: (two_digits m ++ '-' :: two_digits s))

/-- The number of seconds since midnight denoted by the time of day
`h:m:s` (its chronological order). -/
def toSeconds (h m s : Nat) : Nat := 3600 * h + 60 * m + s

/-- The `bands` table of the script. -/
def bands : List (String × String) :=
  [("Band 1", "band_1"), ("Band 2", "band_2"), ("Band 3", "band_3"),
   ("Band 4", "band_4"), ("Band 5", "band_5")]

/-- The `instruments` table of the script. -/
def instruments : List (String × String) :=
  [("SCUBA-2", "scuba-2"), ("HARP", "harp"), ("RxA3", "rxa3")]

/-- The `queries` table of the script. -/
def queries : List (String × String) :=
  [("JLS", "jls"), ("PI projects", "pi"), ("Nothing left", "nl")]

/-- Python dictionary lookup `tbl[k]`, `none` standing for a `KeyError`
(impossible through the UI, which only offers the table's keys). -/
def lookupKey (tbl : List (String × String)) (k : String) : Option String :=
  (tbl.find? (fun p => p.1 == k)).map (fun p => p.2)

/-- Model of `os.path.join` on relative segments. -/
def pathJoin (parts : List String) : String := String.intercalate "/" parts

/-- The segment list of the snapshot directory built in
`ObserveBackup.search`: root, date, resolved time, then the three
table-mapped segments, in that order. -/
def searchSegments (root date best bandKey instKey queryKey : String) :
    Option (List String) :=
  match lookupKey bands bandKey, lookupKey instruments instKey,
      lookupKey queries queryKey with
  | some b, some i, some q => some [root, date, best, b, i, q]
  | _, _, _ => none

/-- The snapshot directory path built in `ObserveBackup.search`. -/
def searchDirectory (root date best bandKey instKey queryKey : String) :
    Option String :=
  (searchSegments root date best bandKey instKey queryKey).map pathJoin

/-! ## Filesystem model and the search outcome -/

/-- A directory tree: each node carries its named children, modelling the
part of the filesystem visible through `os.listdir` / `os.path.exists`.
-/
inductive FSTree where
  | node (children : List (String × FSTree)) : FSTree

/-- Model of `os.listdir` on a directory: the names of its children. -/
def FSTree.listdir : FSTree → List String
  | .node cs => cs.map (fun c => c.1)

/-- Look up a named child of a directory. -/
def FSTree.child : FSTree → String → Option FSTree
  | .node cs, name => (cs.find? (fun c => c.1 == name)).map (fun c => c.2)

/-- Model of `os.path.exists` for a relative path below a directory. -/
def pathExists (d : FSTree) : List String → Bool
  | [] => true
  | n :: rest =>
    match d.child n with
    | none => false
    | some c => pathExists c rest

/-- What `ObserveBackup.search` displays below the directory/time
labels: either the "No results" label, or the listing of the resolved
directory. -/
inductive SearchOutcome where
  | noResults (directory : String) (time : String)
  | found (directory : String) (time : String)
deriving DecidableEq

/-- The remainder of `ObserveBackup.search` below the date directory:
filter the listing through `valid_time`, resolve the time slot, build
the directory path, and report "No results" when it does not exist. -/
def searchIn (dateDir : FSTree) (current_time bandSeg instSeg querySeg : String) :
    SearchOutcome :=
  let times := dateDir.listdir.filter (fun x => matchesTimePattern x)
  let best := resolveSlot times current_time
  let dir := pathJoin [best, bandSeg, instSeg, querySeg]
  if pathExists dateDir [best, bandSeg, instSeg, querySeg] then
    .found dir best
  else
    .noResults dir best

/-! ## Sidecar metadata -/

/-- The nine metadata fields displayed for each MSB. -/
structure MsbInfo where
  coordstype : String
  ra : String
  dec : String
  az : String
  airmass : String
  obstype : String
  timeest : String
  remaining : String
  msbid : String
deriving DecidableEq

/-- A parsed metadata sidecar document: flat elements, tag to text. -/
def XmlDoc : Type := List (String × String)

/-- Model of `ElementTree.find`: the first element with the given tag. -/
def xfind (tree : XmlDoc) (tag : String) : Option String :=
  (List.find? (fun p => p.1 == tag) tree).map (fun p => p.2)

/-- Model of `tree.find(tag).text`, raising (modelled by `Except.error`, as an
`AttributeError` on `None`) when the element is missing. -/
def textOf (tree : XmlDoc) (tag : String) : Except String String :=
  match xfind tree tag with
  | some v => .ok v
  | none => .error ("AttributeError: " ++ tag)

/-- Reading the nine fields out of a present sidecar file. -/
def parseInfo (tree : XmlDoc) : Except String MsbInfo := do
  let coordstype ← textOf tree "coordstype"
  let ra ← textOf tree "ra"
  let dec ← textOf tree "dec"
  let az ← textOf tree "az"
  let airmass ← textOf tree "airmass"
  let obstype ← textOf tree "type"
  let timeest ← textOf tree "timeest"
  let remaining ← textOf tree "remaining"
  let msbid ← textOf tree "msbid"
  pure ⟨coordstype, ra, dec, az, airmass, obstype, timeest, remaining, msbid⟩

/-- The `os.path.exists(infofile)` branch of `search`: a present sidecar
is parsed, an absent one yields all-empty fields. -/
def loadInfoFile (sidecar : Option XmlDoc) : Except String MsbInfo :=
  match sidecar with
  | some tree => parseInfo tree
  | none => .ok ⟨"", "", "", "", "", "", "", "", ""⟩

/-! ## External process model, startup checks, submission -/

/-- Outcome of `subprocess.check_output`: normal output, an `OSError`
(with its errno), or a `CalledProcessError` carrying the process
output. -/
inductive ProcResult where
  | ok (output : String)
  | osError (errno : Nat) (message : String)
  | calledProcessError (output : String)
deriving DecidableEq

/-- The value of `errno.ENOENT`. -/
def ENOENT : Nat := 2

/-- The jcmttranslator version health check: `none` means the check
passed, `some (code, lines)` the exit code and stderr diagnostic. -/
def translatorCheck : ProcResult → Option (Nat × List String)
  | .ok _ => none
  | .osError e m =>
    if e = ENOENT then
      some (1, ["Could not find the JCMT translator",
                "Please source the JCMT setup scripts:",
                "    /jcmt_sw/etc/cshrc",
                "    /jcmt_sw/etc/login"])
    else
      some (1, ["Could not launch the JCMT translator", m])
  | .calledProcessError out =>
    some (1, ["Error testing the JCMT translator", out])

/-- The ditscmd health check. -/
def ditscmdCheck : ProcResult → Option (Nat × List String)
  | .ok _ => none
  | .osError e m =>
    if e = ENOENT then
      some (1, ["Could not find ditscmd",
                "Please source the ITS setup scripts:",
                "    /jac_sw/itsroot/etc/cshrc",
                "    /jac_sw/itsroot/etc/login"])
    else
      some (1, ["Could not launch ditscmd", m])
  | .calledProcessError out =>
    some (1, ["Error testing ditscmd", out])

/-- The interactive state created only after both checks pass. -/
structure AppWindow where
  title : String
deriving DecidableEq

/-- The start-up sequence: translator check, then ditscmd check, then
(and only then) the window.  `Except.error` is the process exiting with
the given status and diagnostic before any window exists. -/
def startup (translatorResult ditscmdResult : ProcResult) :
    Except (Nat × List String) AppWindow :=
  match translatorCheck translatorResult with
  | some e => .error e
  | none =>
    match ditscmdCheck ditscmdResult with
    | some e => .error e
    | none => .ok { title := "Backup MSB Selection Tool" }

/-- A blocking error dialog (`tkMessageBox.showerror`). -/
structure ErrorDialog where
  title : String
  message : String
deriving DecidableEq

/-- Model of `ObserveBackup.send_to_queue`: run the translator on the definition
file; on failure show a dialog and return.  Otherwise strip the
manifest, hand it to the queue tool; on failure show a dialog and
return.  The oracles `translator` and `queue` stand for the two
`subprocess.check_output` calls; `results` is the tool's own state (the
displayed result set), which the handler never touches. -/
def send_to_queue {α : Type} (translator : Except String String)
    (queue : String → Except String String) (results : α) :
    α × Option ErrorDialog :=
  match translator with
  | .error err =>
    (results, some ⟨"Error sending to queue",
      "Could not translate observation.\n" ++ err⟩)
  | .ok manifest =>
    match queue manifest.trim with
    | .error err =>
      (results, some ⟨"Error sending to queue",
        "Could not add observation to queue.\n\n" ++ err ++
          "\n\nPlease check terminal window for messages."⟩)
    | .ok _ => (results, none)

/-- Scenario 1 of the specification. -/
example : resolveSlot ["10-00-00", "14-00-00"] "12-00-00" = "14-00-00" := by
  simp +decide [resolveSlot, resolveAux, List.insertionSort, List.orderedInsert]

/-- Scenario 2 of the specification (wrap-around). -/
example : resolveSlot ["10-00-00", "14-00-00"] "15-00-00" = "10-00-00" := by
  simp +decide [resolveSlot, resolveAux, List.insertionSort, List.orderedInsert]

/-- Scenario 3 of the specification (empty set). -/
example : resolveSlot [] "09-00-00" = "09-00-00" := by decide

example : resolveSlot ["10-00-00", "14-00-00"] "10-00-00" = "10-00-00" := by decide
example : matchesTimePattern "09-00-00" = true := by decide
example : matchesTimePattern "09-00" = false := by decide
example : timeLabel 9 5 30 = "09-05-30" := by decide

/-! ## Helper lemmas about the resolver -/

/-- The head (with default) of a non-empty list is its entry at index 0. -/
theorem headD_eq_get {α : Type} (l : List α) (d : α) (h : 0 < l.length) :
    l.headD d = l.get ⟨0, h⟩ := by
  cases l with
  | nil => simp at h
  | cons a t => rfl

/-- Indexing with a default at an in-range index is `get`. -/
theorem getD_eq_get {α : Type} (l : List α) (d : α) {n : Nat} (h : n < l.length) :
    l.getD n d = l.get ⟨n, h⟩ := by
  rw [List.getD_eq_getElem l d h, List.get_eq_getElem]

/-- The second stage of the resolver stays inside the list it searches. -/
theorem resolveAux_mem (ts : List String) (t : String) (ht : t ∈ ts) :
    resolveAux ts t ∈ ts := by
  rw [resolveAux]
  have hlt : ts.indexOf t < ts.length := List.indexOf_lt_length.mpr ht
  by_cases h : ts.indexOf t = ts.length - 1
  · rw [if_pos h, headD_eq_get ts t (by omega)]
    exact ts.get_mem _ _
  · rw [if_neg h, getD_eq_get ts t (by omega)]
    exact ts.get_mem _ _

/-- The resolver's result is either a member of the input list or the
reference time itself. -/
theorem resolve_mem (S : List String) (t : String) :
    resolveSlot S t ∈ S ∨ resolveSlot S t = t := by
  rw [resolveSlot]
  by_cases hm : t ∈ S
  · rw [if_pos hm]; exact Or.inr rfl
  · rw [if_neg hm]
    have hperm : (List.insertionSort (· ≤ ·) (S ++ [t])).Perm (S ++ [t]) :=
      List.perm_insertionSort _ _
    have htL : t ∈ List.insertionSort (· ≤ ·) (S ++ [t]) :=
      hperm.mem_iff.mpr (by simp)
    have hmem := hperm.mem_iff.mp (resolveAux_mem _ t htL)
    simp only [List.mem_append, List.mem_singleton] at hmem
    exact hmem

/-- When the reference time is absent but some label exceeds it, the
resolver picks the least label above the reference time. -/
theorem resolve_next (S : List String) (t : String) (hnd : S.Nodup) (hmem : t ∉ S)
    (s0 : String) (hs0 : s0 ∈ S) (hts0 : t < s0) :
    resolveSlot S t ∈ S ∧ t < resolveSlot S t ∧
      ∀ s ∈ S, t < s → resolveSlot S t ≤ s := by
  have hperm : (List.insertionSort (· ≤ ·) (S ++ [t])).Perm (S ++ [t]) :=
    List.perm_insertionSort _ _
  set L := List.insertionSort (· ≤ ·) (S ++ [t]) with hLdef
  have hsort : List.Sorted (· ≤ ·) L := List.sorted_insertionSort _ _
  have hndL : L.Nodup := hperm.nodup_iff.mpr (by
    simp [List.nodup_append, hnd, hmem])
  have htL : t ∈ L := hperm.mem_iff.mpr (by simp)
  have hilt : L.indexOf t < L.length := List.indexOf_lt_length.mpr htL
  have hgeti : L.get ⟨L.indexOf t, hilt⟩ = t := List.indexOf_get hilt
  -- every entry above the reference time sits strictly after its index
  have hpos : ∀ j : Fin L.length, t < L.get j → L.indexOf t < (j : Nat) := by
    intro j htj
    rcases lt_trichotomy (j : Nat) (L.indexOf t) with hj | hj | hj
    · have hle : L.get j ≤ L.get ⟨L.indexOf t, hilt⟩ :=
        hsort.rel_get_of_lt (by exact hj)
      rw [hgeti] at hle
      exact absurd htj (not_lt.mpr hle)
    · have : L.get j = t := by
        have : j = ⟨L.indexOf t, hilt⟩ := Fin.ext hj
        rw [this, hgeti]
      rw [this] at htj
      exact absurd htj (lt_irrefl t)
    · exact hj
  have hine : L.indexOf t ≠ L.length - 1 := by
    obtain ⟨j, hj⟩ := List.mem_iff_get.mp (hperm.mem_iff.mpr
      (by simp [hs0]) : s0 ∈ L)
    have hij : L.indexOf t < (j : Nat) := hpos j (by rw [hj]; exact hts0)
    have hjl : (j : Nat) < L.length := j.isLt
    omega
  have hisucc : L.indexOf t + 1 < L.length := by omega
  have hres : resolveSlot S t = L.get ⟨L.indexOf t + 1, hisucc⟩ := by
    rw [resolveSlot, if_neg hmem, resolveAux, ← hLdef, if_neg hine,
      getD_eq_get L t hisucc]
  have hne_t : L.get ⟨L.indexOf t + 1, hisucc⟩ ≠ t := by
    intro he
    have heq := hndL.get_inj_iff.mp (he.trans hgeti.symm)
    simp [Fin.ext_iff] at heq
  have hmemS : L.get ⟨L.indexOf t + 1, hisucc⟩ ∈ S := by
    have hm := hperm.mem_iff.mp (L.get_mem (L.indexOf t + 1) hisucc)
    simp only [List.mem_append, List.mem_singleton] at hm
    exact hm.resolve_right hne_t
  have htlt : t < L.get ⟨L.indexOf t + 1, hisucc⟩ := by
    have hle : L.get ⟨L.indexOf t, hilt⟩ ≤ L.get ⟨L.indexOf t + 1, hisucc⟩ :=
      hsort.rel_get_of_lt (by simp)
    rw [hgeti] at hle
    exact lt_of_le_of_ne hle (Ne.symm hne_t)
  have hmin : ∀ s ∈ S, t < s → L.get ⟨L.indexOf t + 1, hisucc⟩ ≤ s := by
    intro s hs hts
    obtain ⟨j, hj⟩ := List.mem_iff_get.mp (hperm.mem_iff.mpr
      (by simp [hs]) : s ∈ L)
    have hij : L.indexOf t < (j : Nat) := hpos j (by rw [hj]; exact hts)
    have hle : L.get ⟨L.indexOf t + 1, hisucc⟩ ≤ L.get j :=
      hsort.rel_get_of_le (by rw [Fin.le_def]; exact hij)
    rwa [hj] at hle
  rw [hres]
  exact ⟨hmemS, htlt, hmin⟩

/-- When the reference time is absent and exceeds every label, the
resolver wraps around to the least label. -/
theorem resolve_wrap (S : List String) (t : String) (hnd : S.Nodup) (hmem : t ∉ S)
    (hne : S ≠ []) (hall : ∀ s ∈ S, s < t) :
    resolveSlot S t ∈ S ∧ ∀ s ∈ S, resolveSlot S t ≤ s := by
  have hperm : (List.insertionSort (· ≤ ·) (S ++ [t])).Perm (S ++ [t]) :=
    List.perm_insertionSort _ _
  set L := List.insertionSort (· ≤ ·) (S ++ [t]) with hLdef
  have hsort : List.Sorted (· ≤ ·) L := List.sorted_insertionSort _ _
  have hndL : L.Nodup := hperm.nodup_iff.mpr (by
    simp [List.nodup_append, hnd, hmem])
  have htL : t ∈ L := hperm.mem_iff.mpr (by simp)
  have hilt : L.indexOf t < L.length := List.indexOf_lt_length.mpr htL
  have hgeti : L.get ⟨L.indexOf t, hilt⟩ = t := List.indexOf_get hilt
  have hlast : L.indexOf t = L.length - 1 := by
    by_contra hne2
    have hisucc : L.indexOf t + 1 < L.length := by omega
    have hne_t : L.get ⟨L.indexOf t + 1, hisucc⟩ ≠ t := by
      intro he
      have heq := hndL.get_inj_iff.mp (he.trans hgeti.symm)
      simp [Fin.ext_iff] at heq
    have hmemS : L.get ⟨L.indexOf t + 1, hisucc⟩ ∈ S := by
      have hm := hperm.mem_iff.mp (L.get_mem (L.indexOf t + 1) hisucc)
      simp only [List.mem_append, List.mem_singleton] at hm
      exact hm.resolve_right hne_t
    have hlt : L.get ⟨L.indexOf t + 1, hisucc⟩ < t :=
      hall _ hmemS
    have hle : L.get ⟨L.indexOf t, hilt⟩ ≤ L.get ⟨L.indexOf t + 1, hisucc⟩ :=
      hsort.rel_get_of_lt (by simp)
    rw [hgeti] at hle
    exact absurd hlt (not_lt.mpr hle)
  have h0 : 0 < L.length := by omega
  have hres : resolveSlot S t = L.get ⟨0, h0⟩ := by
    rw [resolveSlot, if_neg hmem, resolveAux, ← hLdef, if_pos hlast,
      headD_eq_get L t h0]
  have hr0 : L.get ⟨0, h0⟩ ≠ t := by
    intro he
    have h0i : (⟨0, h0⟩ : Fin L.length) = ⟨L.indexOf t, hilt⟩ :=
      hndL.get_inj_iff.mp (by rw [he, hgeti])
    have hzero : (0 : Nat) = L.indexOf t := by
      simpa [Fin.ext_iff] using h0i
    have hlen : L.length = S.length + 1 := by simp [hperm.length_eq]
    have hSlen : S.length = 0 := by omega
    exact hne (List.length_eq_zero.mp hSlen)
  have hmemS : L.get ⟨0, h0⟩ ∈ S := by
    have hm := hperm.mem_iff.mp (L.get_mem 0 h0)
    simp only [List.mem_append, List.mem_singleton] at hm
    exact hm.resolve_right hr0
  have hmin : ∀ s ∈ S, L.get ⟨0, h0⟩ ≤ s := by
    intro s hs
    obtain ⟨j, hj⟩ := List.mem_iff_get.mp (hperm.mem_iff.mpr
      (by simp [hs]) : s ∈ L)
    have hle : L.get ⟨0, h0⟩ ≤ L.get j :=
      hsort.rel_get_of_le (by rw [Fin.le_def]; exact Nat.zero_le _)
    rwa [hj] at hle
  rw [hres]
  exact ⟨hmemS, hmin⟩

/-! ## Claim theorems: the time-slot resolver -/

/-- C1: for every set `S` of time-slot labels and reference time `t ∉ S`,
the resolver returns the lexically smallest label of `S ∪ {t}` that is
lexically greater than `t` (equivalently, the least label of `S` above
`t`, since `t` itself is not above `t`); and when `t` is lexically
greater than every element of (non-empty) `S` it wraps around and
returns the lexically smallest label of `S`. -/
theorem resolver_after_or_wrap (S : List String) (t : String)
    (hnd : S.Nodup) (hmem : t ∉ S) :
    ((∃ s ∈ S, t < s) →
      resolveSlot S t ∈ S ∧ t < resolveSlot S t ∧
        ∀ s ∈ S, t < s → resolveSlot S t ≤ s)
    ∧ (S ≠ [] → (∀ s ∈ S, s < t) →
      resolveSlot S t ∈ S ∧ ∀ s ∈ S, resolveSlot S t ≤ s) := by
  constructor
  · rintro ⟨s0, hs0, hts0⟩
    exact resolve_next S t hnd hmem s0 hs0 hts0
  · intro hne hall
    exact resolve_wrap S t hnd hmem hne hall

/-- Witness for C1 at the specification's Scenario 1/2 label set. -/
theorem resolver_after_or_wrap_witness :
    (["10-00-00", "14-00-00"] : List String).Nodup ∧
    "12-00-00" ∉ (["10-00-00", "14-00-00"] : List String) ∧
    (((∃ s ∈ (["10-00-00", "14-00-00"] : List String), "12-00-00" < s) →
      resolveSlot ["10-00-00", "14-00-00"] "12-00-00" ∈
          (["10-00-00", "14-00-00"] : List String) ∧
        "12-00-00" < resolveSlot ["10-00-00", "14-00-00"] "12-00-00" ∧
        ∀ s ∈ (["10-00-00", "14-00-00"] : List String), "12-00-00" < s →
          resolveSlot ["10-00-00", "14-00-00"] "12-00-00" ≤ s)
    ∧ ((["10-00-00", "14-00-00"] : List String) ≠ [] →
      (∀ s ∈ (["10-00-00", "14-00-00"] : List String), s < "12-00-00") →
      resolveSlot ["10-00-00", "14-00-00"] "12-00-00" ∈
          (["10-00-00", "14-00-00"] : List String) ∧
        ∀ s ∈ (["10-00-00", "14-00-00"] : List String),
          resolveSlot ["10-00-00", "14-00-00"] "12-00-00" ≤ s)) :=
  ⟨by decide, by decide,
    resolver_after_or_wrap ["10-00-00", "14-00-00"] "12-00-00"
      (by decide) (by decide)⟩

/-- C2: for every non-empty set of labels containing the reference time,
the resolver returns the reference time itself (the `current_time in
times` branch of `search`). -/
theorem resolver_returns_member (S : List String) (t : String) (h : t ∈ S) :
    resolveSlot S t = t := by
  rw [resolveSlot, if_pos h]

/-- Witness for C2. -/
theorem resolver_returns_member_witness :
    "10-00-00" ∈ (["10-00-00", "14-00-00"] : List String) ∧
    resolveSlot ["10-00-00", "14-00-00"] "10-00-00" = "10-00-00" :=
  ⟨by decide, resolver_returns_member ["10-00-00", "14-00-00"] "10-00-00" (by decide)⟩

/-- C4: the resolver is a pure function of the *set* of labels and the
reference time: it is invariant under reordering of the directory
listing (and therefore two calls with the same `(S, t)`, in whatever
order the filesystem happens to enumerate `S`, yield the same result).
-/
theorem resolver_deterministic (S S2 : List String) (t : String)
    (h : S.Perm S2) :
    resolveSlot S t = resolveSlot S2 t := by
  have hsorteq : List.insertionSort (· ≤ ·) (S ++ [t]) =
      List.insertionSort (· ≤ ·) (S2 ++ [t]) :=
    List.eq_of_perm_of_sorted
      ((List.perm_insertionSort _ _).trans
        ((h.append_right [t]).trans (List.perm_insertionSort _ _).symm))
      (List.sorted_insertionSort _ _) (List.sorted_insertionSort _ _)
  rw [resolveSlot, resolveSlot, hsorteq]
  by_cases hm : t ∈ S
  · rw [if_pos hm, if_pos (h.mem_iff.mp hm)]
  · rw [if_neg hm, if_neg (fun hm2 => hm (h.mem_iff.mpr hm2))]

/-- Witness for C4: the two enumeration orders of Scenario 1's label set
resolve identically. -/
theorem resolver_deterministic_witness :
    (["14-00-00", "10-00-00"] : List String).Perm ["10-00-00", "14-00-00"] ∧
    resolveSlot ["14-00-00", "10-00-00"] "12-00-00" =
      resolveSlot ["10-00-00", "14-00-00"] "12-00-00" :=
  ⟨by decide,
    resolver_deterministic ["14-00-00", "10-00-00"] ["10-00-00", "14-00-00"]
      "12-00-00" (by decide)⟩

/-- C10: the resolver's result always lies in `S ∪ {t}`; when `S` is
non-empty and `t ∉ S` the result lies in `S`; and the result equals the
reference time only when `t ∈ S` or `S` is empty. -/
theorem resolver_invariant (S : List String) (t : String) :
    (resolveSlot S t ∈ S ∨ resolveSlot S t = t)
    ∧ (S.Nodup → t ∉ S → S ≠ [] → resolveSlot S t ∈ S)
    ∧ (S.Nodup → resolveSlot S t = t → t ∈ S ∨ S = []) := by
  have key : S.Nodup → t ∉ S → S ≠ [] → resolveSlot S t ∈ S := by
    intro hnd hmem hne
    by_cases hex : ∃ s ∈ S, t < s
    · obtain ⟨s0, hs0, hts0⟩ := hex
      exact (resolve_next S t hnd hmem s0 hs0 hts0).1
    · push_neg at hex
      have hall : ∀ s ∈ S, s < t := fun s hs =>
        lt_of_le_of_ne (hex s hs) (fun he => hmem (he ▸ hs))
      exact (resolve_wrap S t hnd hmem hne hall).1
  refine ⟨resolve_mem S t, key, ?_⟩
  intro hnd heq
  by_cases hne : S = []
  · exact Or.inr hne
  · by_cases hmem : t ∈ S
    · exact Or.inl hmem
    · exact absurd (heq ▸ key hnd hmem hne) hmem

/-- Witness for C10's conditional clauses. -/
theorem resolver_invariant_witness :
    (resolveSlot ["10-00-00"] "12-00-00" ∈ (["10-00-00"] : List String) ∨
      resolveSlot ["10-00-00"] "12-00-00" = "12-00-00")
    ∧ resolveSlot ["10-00-00"] "12-00-00" ∈ (["10-00-00"] : List String) :=
  ⟨(resolver_invariant ["10-00-00"] "12-00-00").1,
    (resolver_invariant ["10-00-00"] "12-00-00").2.1 (by decide) (by decide)
      (by decide)⟩

/-- C3: with no valid time-slot subdirectory present, the resolver
returns the reference time itself, the directory resolved from it does
not exist, and `search` reports "No results" (a normal outcome, not a
raised error: `SearchOutcome` has no error case and this code path
returns). -/
theorem empty_slots_no_results (d : FSTree) (t bandSeg instSeg querySeg : String)
    (hmatch : matchesTimePattern t = true)
    (hempty : d.listdir.filter (fun x => matchesTimePattern x) = []) :
    resolveSlot (d.listdir.filter (fun x => matchesTimePattern x)) t = t
    ∧ pathExists d [t, bandSeg, instSeg, querySeg] = false
    ∧ searchIn d t bandSeg instSeg querySeg =
        .noResults (pathJoin [t, bandSeg, instSeg, querySeg]) t := by
  have hres0 : resolveSlot ([] : List String) t = t := by
    rw [resolveSlot, if_neg (List.not_mem_nil t), resolveAux]
    simp [List.insertionSort, List.orderedInsert, List.indexOf_cons_self]
  have hres : resolveSlot (d.listdir.filter (fun x => matchesTimePattern x)) t = t := by
    rw [hempty, hres0]
  have hnotin : t ∉ d.listdir := by
    intro hin
    have hmem : t ∈ d.listdir.filter (fun x => matchesTimePattern x) :=
      List.mem_filter.mpr ⟨hin, hmatch⟩
    rw [hempty] at hmem
    exact absurd hmem (List.not_mem_nil t)
  have hchild : d.child t = none := by
    cases d with
    | node cs =>
      rw [FSTree.child, Option.map_eq_none']
      rw [List.find?_eq_none]
      intro p hp hbeq
      exact hnotin (by
        rw [FSTree.listdir]
        exact List.mem_map.mpr ⟨p, hp, (beq_iff_eq.mp hbeq)⟩)
  have hexists : pathExists d [t, bandSeg, instSeg, querySeg] = false := by
    rw [pathExists, hchild]
  refine ⟨hres, hexists, ?_⟩
  rw [searchIn]
  simp only [hempty, hres0, hexists, Bool.false_eq_true, if_false]

/-- Witness for C3, Scenario 3: a date directory with no time-slot
subdirectories at all. -/
theorem empty_slots_no_results_witness :
    matchesTimePattern "09-00-00" = true ∧
    (FSTree.node []).listdir.filter (fun x => matchesTimePattern x) = [] ∧
    (resolveSlot ((FSTree.node []).listdir.filter
        (fun x => matchesTimePattern x)) "09-00-00" = "09-00-00"
     ∧ pathExists (FSTree.node [])
         ["09-00-00", "band_1", "scuba-2", "jls"] = false
     ∧ searchIn (FSTree.node []) "09-00-00" "band_1" "scuba-2" "jls" =
         .noResults (pathJoin ["09-00-00", "band_1", "scuba-2", "jls"])
           "09-00-00") :=
  ⟨by decide, by rfl,
    empty_slots_no_results (FSTree.node []) "09-00-00" "band_1" "scuba-2" "jls"
      (by decide) (by rfl)⟩

/-! ## Claim theorem: path construction -/

/-- C5: the snapshot directory path is the order-preserving join of
root, date, time slot and the three statically mapped segments, in that
fixed order; two searches differing only in the query-type selection
produce segment lists agreeing everywhere except the final segment. -/
theorem path_construction (root date best bk ik qk qk2 b i q q2 : String)
    (hb : lookupKey bands bk = some b)
    (hi : lookupKey instruments ik = some i)
    (hq : lookupKey queries qk = some q)
    (hq2 : lookupKey queries qk2 = some q2) :
    searchDirectory root date best bk ik qk =
        some (pathJoin [root, date, best, b, i, q])
    ∧ searchSegments root date best bk ik qk = some [root, date, best, b, i, q]
    ∧ searchSegments root date best bk ik qk2 = some [root, date, best, b, i, q2]
    ∧ [root, date, best, b, i, q].dropLast = [root, date, best, b, i, q2].dropLast := by
  refine ⟨?_, ?_, ?_, rfl⟩ <;>
    simp [searchDirectory, searchSegments, hb, hi, hq, hq2]

/-- Witness for C5 with the tables' first entries and the two query
selections "JLS" and "PI projects". -/
theorem path_construction_witness :
    lookupKey bands "Band 1" = some "band_1" ∧
    lookupKey instruments "HARP" = some "harp" ∧
    lookupKey queries "JLS" = some "jls" ∧
    lookupKey queries "PI projects" = some "pi" ∧
    (searchDirectory "/msb" "2013-05-01" "10-00-00" "Band 1" "HARP" "JLS" =
        some (pathJoin ["/msb", "2013-05-01", "10-00-00", "band_1", "harp", "jls"])
     ∧ searchSegments "/msb" "2013-05-01" "10-00-00" "Band 1" "HARP" "JLS" =
        some ["/msb", "2013-05-01", "10-00-00", "band_1", "harp", "jls"]
     ∧ searchSegments "/msb" "2013-05-01" "10-00-00" "Band 1" "HARP" "PI projects" =
        some ["/msb", "2013-05-01", "10-00-00", "band_1", "harp", "pi"]
     ∧ ["/msb", "2013-05-01", "10-00-00", "band_1", "harp", "jls"].dropLast =
        ["/msb", "2013-05-01", "10-00-00", "band_1", "harp", "pi"].dropLast) :=
  ⟨by rfl, by rfl, by rfl, by rfl,
    path_construction "/msb" "2013-05-01" "10-00-00" "Band 1" "HARP" "JLS"
      "PI projects" "band_1" "harp" "jls" "pi" (by rfl) (by rfl) (by rfl) (by rfl)⟩

/-- C6: an absent sidecar file renders all nine displayed metadata
fields as empty strings, and no exception is raised (the result is
`Except.ok`, not `Except.error`). -/
theorem missing_sidecar_blank_fields :
    loadInfoFile none =
      Except.ok ⟨"", "", "", "", "", "", "", "", ""⟩ := rfl

/-- C8: whenever either external tool is missing (`OSError` with
`ENOENT`), fails to launch (other `OSError`), or fails its health check
(`CalledProcessError`), the process exits with status 1 (non-zero)
before any window is created, with a diagnostic that names the failing
tool; the "not found" diagnostic differs from the "present but errored"
diagnostics. -/
theorem startup_checks :
    (∀ m dits, startup (.osError ENOENT m) dits =
      .error (1, ["Could not find the JCMT translator",
                  "Please source the JCMT setup scripts:",
                  "    /jcmt_sw/etc/cshrc",
                  "    /jcmt_sw/etc/login"]))
    ∧ (∀ e m dits, e ≠ ENOENT → startup (.osError e m) dits =
      .error (1, ["Could not launch the JCMT translator", m]))
    ∧ (∀ out dits, startup (.calledProcessError out) dits =
      .error (1, ["Error testing the JCMT translator", out]))
    ∧ (∀ o m, startup (.ok o) (.osError ENOENT m) =
      .error (1, ["Could not find ditscmd",
                  "Please source the ITS setup scripts:",
                  "    /jac_sw/itsroot/etc/cshrc",
                  "    /jac_sw/itsroot/etc/login"]))
    ∧ (∀ o e m, e ≠ ENOENT → startup (.ok o) (.osError e m) =
      .error (1, ["Could not launch ditscmd", m]))
    ∧ (∀ o out, startup (.ok o) (.calledProcessError out) =
      .error (1, ["Error testing ditscmd", out]))
    ∧ ((1 : Nat) ≠ 0
      ∧ "Could not find the JCMT translator" ≠ "Could not launch the JCMT translator"
      ∧ "Could not find the JCMT translator" ≠ "Error testing the JCMT translator"
      ∧ "Could not find ditscmd" ≠ "Could not launch ditscmd"
      ∧ "Could not find ditscmd" ≠ "Error testing ditscmd") := by
  refine ⟨?_, ?_, ?_, ?_, ?_, ?_, ?_⟩
  · intro m dits; rfl
  · intro e m dits h
    simp [startup, translatorCheck, h]
  · intro out dits; rfl
  · intro o m; rfl
  · intro o e m h
    simp [startup, translatorCheck, ditscmdCheck, h]
  · intro o out; rfl
  · exact ⟨by decide, by decide, by decide, by decide, by decide⟩

/-- Witness for C8: Scenario 4 (translator missing) and the
hypothesis-bearing "present but errored" branches at errno 13. -/
theorem startup_checks_witness :
    startup (.osError ENOENT "m") (.ok "o") =
      .error (1, ["Could not find the JCMT translator",
                  "Please source the JCMT setup scripts:",
                  "    /jcmt_sw/etc/cshrc",
                  "    /jcmt_sw/etc/login"])
    ∧ (13 : Nat) ≠ ENOENT
    ∧ startup (.osError 13 "boom") (.ok "o") =
      .error (1, ["Could not launch the JCMT translator", "boom"])
    ∧ startup (.ok "o") (.osError 13 "boom") =
      .error (1, ["Could not launch ditscmd", "boom"]) :=
  ⟨startup_checks.1 "m" (.ok "o"), by decide,
    startup_checks.2.1 13 "boom" (.ok "o") (by decide),
    startup_checks.2.2.2.2.1 "o" 13 "boom" (by decide)⟩

/-- C9: when either submission step fails, a blocking dialog carrying
the captured error text is shown, the handler returns (the session
continues), and the tool's own state -- in particular the displayed
result set -- is returned unchanged, whatever it was. -/
theorem send_to_queue_failure {α : Type} (queue : String → Except String String)
    (results : α) :
    (∀ err, send_to_queue (.error err) queue results =
      (results, some ⟨"Error sending to queue",
        "Could not translate observation.\n" ++ err⟩))
    ∧ (∀ manifest err, queue manifest.trim = .error err →
      send_to_queue (.ok manifest) queue results =
      (results, some ⟨"Error sending to queue",
        "Could not add observation to queue.\n\n" ++ err ++
          "\n\nPlease check terminal window for messages."⟩))
    ∧ (∀ translator, (send_to_queue translator queue results).1 = results) := by
  refine ⟨fun err => rfl, ?_, ?_⟩
  · intro manifest err h
    simp [send_to_queue, h]
  · intro translator
    cases translator with
    | error err => rfl
    | ok manifest =>
      rcases hq : queue manifest.trim with err | out <;>
        simp [send_to_queue, hq]

/-- Witness for C9 with a one-row result set and failing oracles. -/
theorem send_to_queue_failure_witness :
    (send_to_queue (.error "translate failed")
        (fun _ => Except.error "queue failed") ["row1"] =
      (["row1"], some ⟨"Error sending to queue",
        "Could not translate observation.\n" ++ "translate failed"⟩))
    ∧ ((fun _ => (Except.error "queue failed" : Except String String))
          ("manifest".trim) = .error "queue failed")
    ∧ (send_to_queue (.ok "manifest")
        (fun _ => Except.error "queue failed") ["row1"] =
      (["row1"], some ⟨"Error sending to queue",
        "Could not add observation to queue.\n\n" ++ "queue failed" ++
          "\n\nPlease check terminal window for messages."⟩)) :=
  ⟨(send_to_queue_failure (fun _ => Except.error "queue failed") ["row1"]).1
      "translate failed",
    rfl,
    (send_to_queue_failure (fun _ => Except.error "queue failed") ["row1"]).2.1
      "manifest" "queue failed" rfl⟩

/-! ## Lexicographic order of time labels vs chronological order -/

/-- Inversion for lexicographic order on cons cells. -/
theorem lex_cons_iff {a b : Char} {l1 l2 : List Char} :
    List.Lex (· < ·) (a :: l1) (b :: l2) ↔
      a < b ∨ (a = b ∧ List.Lex (· < ·) l1 l2) := by
  constructor
  · intro h
    cases h with
    | cons h => exact Or.inr ⟨rfl, h⟩
    | rel h => exact Or.inl h
  · rintro (h | ⟨rfl, h⟩)
    · exact List.Lex.rel h
    · exact List.Lex.cons h

/-- Decimal digit characters compare like the digits they denote. -/
theorem digitChar_lt_iff : ∀ a, a < 10 → ∀ b, b < 10 →
    ((Char.ofNat (48 + a) < Char.ofNat (48 + b)) ↔ a < b) := by decide

/-- Decimal digit characters are equal exactly for equal digits. -/
theorem digitChar_eq_iff : ∀ a, a < 10 → ∀ b, b < 10 →
    ((Char.ofNat (48 + a) = Char.ofNat (48 + b)) ↔ a = b) := by decide

/-- Lexicographic comparison across a zero-padded two-digit block:
compare the block values first, ties fall through to the suffixes. -/
theorem lex_two_digits (x y : Nat) (hx : x < 100) (hy : y < 100)
    (r1 r2 : List Char) :
    List.Lex (· < ·) (two_digits x ++ r1) (two_digits y ++ r2) ↔
      (x < y ∨ (x = y ∧ List.Lex (· < ·) r1 r2)) := by
  rw [two_digits, two_digits]
  simp only [List.cons_append, List.nil_append]
  rw [lex_cons_iff, lex_cons_iff]
  rw [digitChar_lt_iff _ (by omega) _ (by omega),
      digitChar_eq_iff _ (by omega) _ (by omega),
      digitChar_lt_iff _ (by omega) _ (by omega),
      digitChar_eq_iff _ (by omega) _ (by omega)]
  constructor
  · rintro (h | ⟨h1, h2 | ⟨h3, h4⟩⟩)
    · exact Or.inl (by omega)
    · exact Or.inl (by omega)
    · exact Or.inr ⟨by omega, h4⟩
  · rintro (h | ⟨rfl, h⟩)
    · by_cases hd : x / 10 < y / 10
      · exact Or.inl hd
      · exact Or.inr ⟨by omega, Or.inl (by omega)⟩
    · exact Or.inr ⟨rfl, Or.inr ⟨rfl, h⟩⟩

/-- Strict lexicographic comparison of `HH-MM-SS` labels coincides with
chronological comparison. -/
theorem timeLabel_lt_iff (h1 m1 s1 h2 m2 s2 : Nat)
    (hh1 : h1 < 24) (hm1 : m1 < 60) (hs1 : s1 < 60)
    (hh2 : h2 < 24) (hm2 : m2 < 60) (hs2 : s2 < 60) :
    (timeLabel h1 m1 s1 < timeLabel h2 m2 s2) ↔
      toSeconds h1 m1 s1 < toSeconds h2 m2 s2 := by
  have hstep : (timeLabel h1 m1 s1 < timeLabel h2 m2 s2) ↔
      List.Lex (· < ·)
        (two_digits h1 ++ '-' :: (two_digits m1 ++ '-' :: two_digits s1))
        (two_digits h2 ++ '-' :: (two_digits m2 ++ '-' :: two_digits s2)) := by
    rw [timeLabel, timeLabel, String.lt_iff_toList_lt]
    exact Iff.rfl
  rw [hstep, toSeconds, toSeconds]
  rw [lex_two_digits h1 h2 (by omega) (by omega)]
  rw [lex_cons_iff]
  rw [lex_two_digits m1 m2 (by omega) (by omega)]
  rw [lex_cons_iff]
  rw [show two_digits s1 = two_digits s1 ++ [] from (List.append_nil _).symm,
      show two_digits s2 = two_digits s2 ++ [] from (List.append_nil _).symm,
      lex_two_digits s1 s2 (by omega) (by omega)]
  have hnil : List.Lex (· < ·) ([] : List Char) [] ↔ False :=
    iff_false_intro (List.Lex.not_nil_right _ _)
  simp only [hnil, lt_self_iff_false, eq_self_iff_true, and_false, or_false,
    false_or, true_and]
  omega

/-- C7: for zero-padded `HH-MM-SS` labels denoting times of day,
lexicographic string comparison (both strict and non-strict) agrees with
chronological comparison of the denoted times; hence sorting labels
lexically sorts them chronologically. -/
theorem label_lex_iff_chronological (h1 m1 s1 h2 m2 s2 : Nat)
    (hh1 : h1 < 24) (hm1 : m1 < 60) (hs1 : s1 < 60)
    (hh2 : h2 < 24) (hm2 : m2 < 60) (hs2 : s2 < 60) :
    ((timeLabel h1 m1 s1 < timeLabel h2 m2 s2) ↔
      toSeconds h1 m1 s1 < toSeconds h2 m2 s2)
    ∧ ((timeLabel h1 m1 s1 ≤ timeLabel h2 m2 s2) ↔
      toSeconds h1 m1 s1 ≤ toSeconds h2 m2 s2) := by
  refine ⟨timeLabel_lt_iff h1 m1 s1 h2 m2 s2 hh1 hm1 hs1 hh2 hm2 hs2, ?_⟩
  rw [← not_lt, ← not_lt,
    timeLabel_lt_iff h2 m2 s2 h1 m1 s1 hh2 hm2 hs2 hh1 hm1 hs1]

/-- Witness for C7 at 10:00:00 vs 14:00:00. -/
theorem label_lex_iff_chronological_witness :
    ((10 : Nat) < 24 ∧ (0 : Nat) < 60 ∧ (14 : Nat) < 24) ∧
    (((timeLabel 10 0 0 < timeLabel 14 0 0) ↔
        toSeconds 10 0 0 < toSeconds 14 0 0)
      ∧ ((timeLabel 10 0 0 ≤ timeLabel 14 0 0) ↔
        toSeconds 10 0 0 ≤ toSeconds 14 0 0)) :=
  ⟨⟨by decide, by decide, by decide⟩,
    label_lex_iff_chronological 10 0 0 14 0 0 (by decide) (by decide)
      (by decide) (by decide) (by decide) (by decide)⟩
